import Mathlib

set_option linter.unusedVariables false

/-! Verification of the jip cluster backend layer and of the Option
container of jip/options.py.  The cluster module itself is not part of the
visible sources, so its data model and operations are modelled from the
specification (registry, placeholder resolution, resource normalization);
the Option container is embedded directly from jip/options.py. -/

abbrev OStr := Option String

/-- Modelled from the spec: jip/cluster.py is not under src/.  A Job is the
scheduled unit of work; the cluster layer only reads its scheduler-assigned
identifier (the tests build a one-field namedtuple Job(job_id)). -/
structure Job where
  job_id : Nat
  deriving DecidableEq

/-- Fuel-indexed literal leftmost substring replacement over character
lists: every non-overlapping occurrence of tok is replaced by rep, all
other characters are kept.  The fuel only bounds recursion; s.length steps
always suffice. -/
def replaceTokF : Nat → List Char → List Char → List Char → List Char
  | 0, _, _, s => s
  | fuel + 1, tok, rep, s =>
    match s with
    | [] => []
    | c :: rest =>
      if tok.isPrefixOf (c :: rest) && !tok.isEmpty then
        rep ++ replaceTokF fuel tok rep ((c :: rest).drop tok.length)
      else
        c :: replaceTokF fuel tok rep rest

/-- Modelled from the spec: literal substring substitution of every
occurrence of tok in s by rep (section 4.2), the behaviour of Python's
s.replace(tok, rep) for a non-empty tok. -/
def pyreplace (s tok rep : String) : String :=
  String.mk (replaceTokF s.data.length tok.data rep.data s.data)

/-- Occurrence test: true when tok occurs as a contiguous sublist of s. -/
def hasTok : List Char → List Char → Bool
  | _, [] => false
  | tok, c :: rest => tok.isPrefixOf (c :: rest) || hasTok tok rest

/-- String form of the occurrence test. -/
def occursIn (tok s : String) : Bool := hasTok tok.data s.data

/-- Modelled from the spec: a concrete backend owns its canonical dotted
identifier, its table of placeholder token strings (section 4.2), and the
two configuration-driven resource knobs of section 4.3 (parallel
environment name and preferred memory unit; only the SGE backend consults
them in the visible evidence). -/
structure Backend where
  name : String
  tokens : List String
  threads_pe : String
  mem_unit : String
  deriving DecidableEq

/-- Modelled from the spec: resolve_log substitutes every known token of
the backend by the decimal string form of the job's scheduler-assigned
identifier and leaves all other characters untouched (section 4.2). -/
def Backend.resolve_log (b : Backend) (job : Job) (template : String) : String :=
  b.tokens.foldl (fun acc tok => pyreplace acc tok (toString job.job_id)) template

/-- Upper-casing of a string, character by character (the behaviour of
Python's str.upper on the ASCII unit symbols involved here). -/
def strUpper (s : String) : String := String.mk (s.data.map Char.toUpper)

/-- Modelled from the spec: the configuration overlay entries consulted by
the SGE backend at construction time (sections 3 and 6). -/
structure Config where
  sge_threads_pe : OStr
  sge_mem_unit : OStr
  deriving DecidableEq

/-- Modelled from the spec: the built-in default SGE parallel-environment
name.  The spec fixes only that it exists and that a configured
threads_pe overrides it, not its concrete value. -/
def sge_default_threads_pe : String := "smp"

/-- Modelled from the spec: the Slurm backend with token table [%j]. -/
def mkSlurm (cfg : Config) : Backend :=
  ⟨"jip.cluster.Slurm", ["%j"], sge_default_threads_pe, "M"⟩

/-- Modelled from the spec: the PBS backend with token table [$PBS_JOBID]. -/
def mkPBS (cfg : Config) : Backend :=
  ⟨"jip.cluster.PBS", ["$PBS_JOBID"], sge_default_threads_pe, "M"⟩

/-- Modelled from the spec: the LSF backend with token table [%J]. -/
def mkLSF (cfg : Config) : Backend :=
  ⟨"jip.cluster.LSF", ["%J"], sge_default_threads_pe, "M"⟩

/-- Modelled from the spec: the SGE backend; it reads threads_pe and
mem_unit from its configuration namespace, falling back to built-in
defaults, and stores mem_unit upper-cased (sections 4.3 and 6). -/
def mkSGE (cfg : Config) : Backend :=
  ⟨"jip.cluster.SGE", ["$JOB_ID"],
   cfg.sge_threads_pe.getD sge_default_threads_pe,
   strUpper (cfg.sge_mem_unit.getD "M")⟩

/-- Modelled from the spec: the error taxonomy of section 7.  The registry
reports failures as ClusterImplementationError, never as a scheduler-native
or generic error. -/
inductive JipError where
  | ClusterImplementationError : String → JipError
  | SubmissionError : String → JipError
  deriving DecidableEq

/-- Modelled from the spec: the registry get(name) of section 4.4.  An
unset name and an unknown name both fail with ClusterImplementationError;
a known canonical identifier is instantiated with the configuration
overlay injected. -/
def jip.get (cfg : Config) (name : Option String) : Except JipError Backend :=
  match name with
  | none => .error (.ClusterImplementationError "no cluster configured")
  | some n =>
    if n = "jip.cluster.Slurm" then .ok (mkSlurm cfg)
    else if n = "jip.cluster.PBS" then .ok (mkPBS cfg)
    else if n = "jip.cluster.LSF" then .ok (mkLSF cfg)
    else if n = "jip.cluster.SGE" then .ok (mkSGE cfg)
    else .error (.ClusterImplementationError ("no such cluster implementation " ++ n))

/-- Modelled from the spec: memory-unit conversion (section 4.3, design
note in section 9): divide by 1024 for G, multiply by 1024 for K, pass
through for M, and fail fast with a validation error on any other symbol.
The unit argument is the stored (already upper-cased) symbol. -/
def convert_mem (unit : String) (mem : Nat) : Except String Nat :=
  if unit = "G" then .ok (mem / 1024)
  else if unit = "K" then .ok (mem * 1024)
  else if unit = "M" then .ok mem
  else .error ("unsupported memory unit " ++ unit)

/-- Modelled from the spec: the SGE memory formatter (the test's
sge._sge_mem): the converted numeric result concatenated directly with the
upper-cased unit symbol. -/
def Backend.sge_mem (b : Backend) (mem : Nat) : Except String String :=
  match convert_mem b.mem_unit mem with
  | .ok n => .ok (toString n ++ b.mem_unit)
  | .error e => .error e

/-- The nargs field of an option: a count (0 or 1 in practice), or the
strings "*" and "+" of jip/options.py. -/
inductive NArgs where
  | num : Nat → NArgs
  | star : NArgs
  | plus : NArgs
  deriving DecidableEq

/-- The Option class of jip/options.py (renamed JOption: Option is Lean's
builtin).  Only the attributes relevant to identity, equality and container
lookup are carried; values are modelled as strings. -/
structure JOption where
  name : String
  short : OStr
  long : OStr
  nargs : NArgs
  default : OStr
  value : List String
  required : Bool
  hidden : Bool
  deriving DecidableEq

/-- The Option(name) constructor call used by Options.__index: every
attribute other than name takes its constructor default (nargs is
inferred as 1 since the default value is None). -/
def mkOption (name : String) : JOption :=
  ⟨name, none, none, NArgs.num 1, none, [], false, false⟩

/-- Option.__eq__ of jip/options.py: equality depends only on the name
attribute.  The isinstance(other, Option) guard of the source is enforced
here by typing. -/
def JOption.beq (a b : JOption) : Bool := a.name == b.name

/-- A model of Python's string hash: any concrete function of the string
contents. -/
def strHash (s : String) : Nat :=
  s.data.foldl (fun a c => a * 31 + c.toNat) 7

/-- Option.__hash__ of jip/options.py: return self.name.__hash__(). -/
def JOption.hashv (o : JOption) : Nat := strHash o.name

/-- The Options container of jip/options.py. -/
structure Options where
  options : List JOption

/-- The list.index(Option(name)) call inside Options.__index: the index of
the first element equal (under Option.__eq__) to Option(name), and -1 when
the lookup raises (the except branch of Options.__index). -/
def idxAux : List JOption → String → Int
  | [], _ => -1
  | o :: rest, nm =>
    if o.beq (mkOption nm) then 0
    else
      let r := idxAux rest nm
      if r < 0 then -1 else r + 1

/-- Options.__index of jip/options.py. -/
def Options.index (self : Options) (name : String) : Int :=
  idxAux self.options name

/-- Options.__getitem__ of jip/options.py: the option at the looked-up
index when it is non-negative, None otherwise. -/
def Options.getitem (self : Options) (name : String) : Option JOption :=
  let i := self.index name
  if 0 ≤ i then self.options[i.toNat]? else none

/-- Options.add of jip/options.py: raise ValueError when an option with
the same name already exists, append otherwise. -/
def Options.add (self : Options) (o : JOption) : Except String Options :=
  if 0 ≤ self.index o.name then
    .error "Option with the name already exists"
  else
    .ok ⟨self.options ++ [o]⟩

/-- Replacement is the identity on inputs with no occurrence of the
token, for any amount of fuel. -/
theorem replaceTokF_no_occ (tok rep : List Char) :
    ∀ (fuel : Nat) (s : List Char), hasTok tok s = false →
      replaceTokF fuel tok rep s = s := by
  intro fuel
  induction fuel with
  | zero => intro s h; rfl
  | succ f ih =>
    intro s h
    cases s with
    | nil => rfl
    | cons c rest =>
      have h' : hasTok tok (c :: rest) = false := h
      simp only [hasTok, Bool.or_eq_false_iff] at h'
      obtain ⟨h1, h2⟩ := h'
      simp only [replaceTokF, h1, Bool.false_and, Bool.false_eq_true,
        if_false, List.cons.injEq, true_and]
      exact ih rest h2

/-- String-level form: pyreplace returns its input unchanged when the
token does not occur in it. -/
theorem pyreplace_no_occ (s tok rep : String) (h : occursIn tok s = false) :
    pyreplace s tok rep = s := by
  unfold pyreplace
  rw [replaceTokF_no_occ tok.data rep.data s.data.length s.data h]

/-- The conversion succeeds exactly on the three recognized unit symbols
and fails with a validation error on every other symbol. -/
theorem convert_mem_cases (unit : String) (mem : Nat) :
    ((unit = "K" ∨ unit = "M" ∨ unit = "G") →
      ∃ n, convert_mem unit mem = Except.ok n) ∧
    (unit ≠ "K" → unit ≠ "M" → unit ≠ "G" →
      ∃ e, convert_mem unit mem = Except.error e) := by
  constructor
  · rintro (h | h | h) <;> subst h
    · exact ⟨mem * 1024, rfl⟩
    · exact ⟨mem, rfl⟩
    · exact ⟨mem / 1024, rfl⟩
  · intro h1 h2 h3
    unfold convert_mem
    rw [if_neg h3, if_neg h1, if_neg h2]
    exact ⟨_, rfl⟩

/-- The looked-up index is non-negative exactly when some option in the
list carries the looked-up name, whatever its other attributes. -/
theorem idxAux_nonneg_iff (l : List JOption) (nm : String) :
    0 ≤ idxAux l nm ↔ ∃ x ∈ l, x.name = nm := by
  induction l with
  | nil => simp [idxAux]
  | cons o rest ih =>
    by_cases hb : o.beq (mkOption nm) = true
    · have hname : o.name = nm := by
        simpa [JOption.beq, mkOption] using hb
      have hidx : idxAux (o :: rest) nm = 0 := by simp [idxAux, hb]
      rw [hidx]
      exact ⟨fun _ => ⟨o, List.mem_cons_self o rest, hname⟩, fun _ => le_refl 0⟩
    · have hname : o.name ≠ nm := by
        simpa [JOption.beq, mkOption] using hb
      have hidx : idxAux (o :: rest) nm =
          if idxAux rest nm < 0 then -1 else idxAux rest nm + 1 := by
        simp [idxAux, hb]
      rw [hidx]
      rcases lt_or_le (idxAux rest nm) 0 with hr | hr
      · rw [if_pos hr]
        constructor
        · intro h; exact absurd h (by norm_num)
        · rintro ⟨x, hx, hxn⟩
          rcases List.mem_cons.mp hx with rfl | hx'
          · exact absurd hxn hname
          · have := ih.mpr ⟨x, hx', hxn⟩
            omega
      · rw [if_neg (not_lt.mpr hr)]
        constructor
        · intro _
          obtain ⟨x, hx, hxn⟩ := ih.mp hr
          exact ⟨x, List.mem_cons_of_mem o hx, hxn⟩
        · intro _
          omega

/-- A non-negative looked-up index points at an option carrying the
looked-up name. -/
theorem idxAux_get (l : List JOption) (nm : String) (h : 0 ≤ idxAux l nm) :
    ∃ x, l[(idxAux l nm).toNat]? = some x ∧ x.name = nm := by
  induction l with
  | nil => simp [idxAux] at h
  | cons o rest ih =>
    by_cases hb : o.beq (mkOption nm) = true
    · have hname : o.name = nm := by
        simpa [JOption.beq, mkOption] using hb
      have hidx : idxAux (o :: rest) nm = 0 := by simp [idxAux, hb]
      rw [hidx]
      exact ⟨o, by simp, hname⟩
    · have hidx : idxAux (o :: rest) nm =
          if idxAux rest nm < 0 then -1 else idxAux rest nm + 1 := by
        simp [idxAux, hb]
      rw [hidx] at h ⊢
      rcases lt_or_le (idxAux rest nm) 0 with hr | hr
      · rw [if_pos hr] at h
        exact absurd h (by norm_num)
      · rw [if_neg (not_lt.mpr hr)] at h ⊢
        obtain ⟨x, hx, hxn⟩ := ih hr
        refine ⟨x, ?_, hxn⟩
        have ht : (idxAux rest nm + 1).toNat = (idxAux rest nm).toNat + 1 := by omega
        rw [ht, List.getElem?_cons_succ]
        exact hx

/-- C1: for every backend among Slurm, PBS, LSF and SGE, with a job whose
scheduler identifier is 1, resolve_log replaces every occurrence of the
backend's token by the decimal string of the identifier and leaves all
other characters unchanged; in particular log-<token> resolves to log-1
for each backend, and a template with two token occurrences has both
replaced. -/
theorem claim_C1 :
    (Backend.resolve_log (mkSlurm ⟨none, none⟩) ⟨1⟩ "log-%j" = "log-1") ∧
    (Backend.resolve_log (mkPBS ⟨none, none⟩) ⟨1⟩ "log-$PBS_JOBID" = "log-1") ∧
    (Backend.resolve_log (mkLSF ⟨none, none⟩) ⟨1⟩ "log-%J" = "log-1") ∧
    (Backend.resolve_log (mkSGE ⟨none, none⟩) ⟨1⟩ "log-$JOB_ID" = "log-1") ∧
    (Backend.resolve_log (mkSlurm ⟨none, none⟩) ⟨1⟩ "a-%j-b-%j-c" = "a-1-b-1-c") := by
  refine ⟨by decide, by decide, by decide, by decide, by decide⟩

/-- C2: for each configured SGE memory-unit symbol among G, g, K, k, M and
m, the stored mem_unit attribute is the upper-cased symbol and formatting
the quantity 32768 (base unit megabytes) yields 32G, 32G, 33554432K,
33554432K, 32768M and 32768M respectively: division by 1024 for G,
multiplication by 1024 for K, pass-through for M, result concatenated
directly with the upper-cased symbol. -/
theorem claim_C2 :
    ((mkSGE ⟨none, some "G"⟩).mem_unit = "G" ∧
      (mkSGE ⟨none, some "G"⟩).sge_mem 32768 = Except.ok "32G") ∧
    ((mkSGE ⟨none, some "g"⟩).mem_unit = "G" ∧
      (mkSGE ⟨none, some "g"⟩).sge_mem 32768 = Except.ok "32G") ∧
    ((mkSGE ⟨none, some "K"⟩).mem_unit = "K" ∧
      (mkSGE ⟨none, some "K"⟩).sge_mem 32768 = Except.ok "33554432K") ∧
    ((mkSGE ⟨none, some "k"⟩).mem_unit = "K" ∧
      (mkSGE ⟨none, some "k"⟩).sge_mem 32768 = Except.ok "33554432K") ∧
    ((mkSGE ⟨none, some "M"⟩).mem_unit = "M" ∧
      (mkSGE ⟨none, some "M"⟩).sge_mem 32768 = Except.ok "32768M") ∧
    ((mkSGE ⟨none, some "m"⟩).mem_unit = "M" ∧
      (mkSGE ⟨none, some "m"⟩).sge_mem 32768 = Except.ok "32768M") :=
  ⟨⟨rfl, rfl⟩, ⟨rfl, rfl⟩, ⟨rfl, rfl⟩, ⟨rfl, rfl⟩, ⟨rfl, rfl⟩, ⟨rfl, rfl⟩⟩

/-- C3: the registry lookup fails with ClusterImplementationError both on
an unset name and on every name that is not a known backend identifier
such as unknown; the failure is this one typed error. -/
theorem claim_C3 (cfg : Config) :
    (∃ m, jip.get cfg none = Except.error (JipError.ClusterImplementationError m)) ∧
    ∀ n : String, n ≠ "jip.cluster.Slurm" → n ≠ "jip.cluster.PBS" →
      n ≠ "jip.cluster.LSF" → n ≠ "jip.cluster.SGE" →
      ∃ m, jip.get cfg (some n) = Except.error (JipError.ClusterImplementationError m) := by
  refine ⟨⟨"no cluster configured", rfl⟩, ?_⟩
  intro n h1 h2 h3 h4
  refine ⟨"no such cluster implementation " ++ n, ?_⟩
  unfold jip.get
  simp [h1, h2, h3, h4]

/-- C3 witness: both failures at a concrete configuration, the unknown
name being unknown. -/
theorem claim_C3_witness :
    (∃ m, jip.get ⟨none, none⟩ none =
      Except.error (JipError.ClusterImplementationError m)) ∧
    ∃ m, jip.get ⟨none, none⟩ (some "unknown") =
      Except.error (JipError.ClusterImplementationError m) :=
  ⟨(claim_C3 ⟨none, none⟩).1,
   (claim_C3 ⟨none, none⟩).2 "unknown" (by decide) (by decide) (by decide)
     (by decide)⟩

/-- C4: each of the four built-in canonical backend identifiers resolves
through the registry to a backend instance. -/
theorem claim_C4 (cfg : Config) :
    (∃ b, jip.get cfg (some "jip.cluster.Slurm") = Except.ok b) ∧
    (∃ b, jip.get cfg (some "jip.cluster.PBS") = Except.ok b) ∧
    (∃ b, jip.get cfg (some "jip.cluster.LSF") = Except.ok b) ∧
    (∃ b, jip.get cfg (some "jip.cluster.SGE") = Except.ok b) :=
  ⟨⟨mkSlurm cfg, rfl⟩, ⟨mkPBS cfg, rfl⟩, ⟨mkLSF cfg, rfl⟩, ⟨mkSGE cfg, rfl⟩⟩

/-- C4 witness: the four lookups at a concrete configuration. -/
theorem claim_C4_witness :
    (∃ b, jip.get ⟨none, none⟩ (some "jip.cluster.Slurm") = Except.ok b) ∧
    (∃ b, jip.get ⟨none, none⟩ (some "jip.cluster.PBS") = Except.ok b) ∧
    (∃ b, jip.get ⟨none, none⟩ (some "jip.cluster.LSF") = Except.ok b) ∧
    (∃ b, jip.get ⟨none, none⟩ (some "jip.cluster.SGE") = Except.ok b) :=
  claim_C4 ⟨none, none⟩

/-- C5: on a template containing none of the backend's tokens, resolve_log
is the identity; hence a second application of resolve_log to an
already-resolved string with no remaining tokens returns it unchanged. -/
theorem claim_C5 (b : Backend) (job : Job) (t : String)
    (h : ∀ tok ∈ b.tokens, occursIn tok t = false) :
    b.resolve_log job t = t := by
  unfold Backend.resolve_log
  have key : ∀ (toks : List String), (∀ tok ∈ toks, occursIn tok t = false) →
      toks.foldl (fun acc tok => pyreplace acc tok (toString job.job_id)) t = t := by
    intro toks
    induction toks with
    | nil => intro _; rfl
    | cons a as ih =>
      intro hh
      simp only [List.foldl_cons]
      rw [pyreplace_no_occ t a _ (hh a (List.mem_cons_self a as))]
      exact ih (fun tok hm => hh tok (List.mem_cons_of_mem a hm))
  exact key b.tokens h

/-- C5 witness: the Slurm backend leaves the already-resolved string log-1
unchanged. -/
theorem claim_C5_witness :
    Backend.resolve_log (mkSlurm ⟨none, none⟩) ⟨1⟩ "log-1" = "log-1" :=
  claim_C5 (mkSlurm ⟨none, none⟩) ⟨1⟩ "log-1" (by decide)

/-- C6: with no configured mem_unit the SGE backend defaults to M and
formatting 32768 yields 32768M. -/
theorem claim_C6 :
    (mkSGE ⟨none, none⟩).mem_unit = "M" ∧
    (mkSGE ⟨none, none⟩).sge_mem 32768 = Except.ok "32768M" :=
  ⟨rfl, rfl⟩

/-- C7: configuring threads_pe as threads makes a fresh SGE backend's
parallel-environment name threads, and with no configuration it is the
built-in default. -/
theorem claim_C7 :
    (mkSGE ⟨some "threads", none⟩).threads_pe = "threads" ∧
    (mkSGE ⟨none, none⟩).threads_pe = sge_default_threads_pe :=
  ⟨rfl, rfl⟩

/-- C8: memory conversion succeeds on every unit symbol whose upper-cased
form is K, M or G, and on every other symbol (case-insensitively outside
that set) it fails fast with a validation error instead of coercing a
result. -/
theorem claim_C8 (u : String) (mem : Nat) :
    ((strUpper u = "K" ∨ strUpper u = "M" ∨ strUpper u = "G") →
      ∃ s, (mkSGE ⟨none, some u⟩).sge_mem mem = Except.ok s) ∧
    (strUpper u ≠ "K" → strUpper u ≠ "M" → strUpper u ≠ "G" →
      ∃ e, (mkSGE ⟨none, some u⟩).sge_mem mem = Except.error e) := by
  have hmu : (mkSGE ⟨none, some u⟩).mem_unit = strUpper u := rfl
  constructor
  · intro h
    obtain ⟨n, hn⟩ := (convert_mem_cases (strUpper u) mem).1 h
    exact ⟨toString n ++ strUpper u, by simp only [Backend.sge_mem, hmu, hn]⟩
  · intro h1 h2 h3
    obtain ⟨e, he⟩ := (convert_mem_cases (strUpper u) mem).2 h1 h2 h3
    exact ⟨e, by simp only [Backend.sge_mem, hmu, he]⟩

/-- C8 witness: the symbol X is rejected with a validation error. -/
theorem claim_C8_witness :
    ∃ e, (mkSGE ⟨none, some "X"⟩).sge_mem 1 = Except.error e :=
  (claim_C8 "X" 1).2 (by decide) (by decide) (by decide)

/-- C9: two backend instances obtained from the registry for the same name
under the same configuration have identical pure behaviour: resolve_log
agrees on every job and template and memory formatting agrees on every
quantity. -/
theorem claim_C9 (name : Option String) (cfg : Config) (b1 b2 : Backend)
    (h1 : jip.get cfg name = Except.ok b1) (h2 : jip.get cfg name = Except.ok b2) :
    (∀ j t, b1.resolve_log j t = b2.resolve_log j t) ∧
    (∀ mem, b1.sge_mem mem = b2.sge_mem mem) := by
  rw [h1] at h2
  injection h2 with h
  subst h
  exact ⟨fun _ _ => rfl, fun _ => rfl⟩

/-- C9 witness: two SGE lookups under the default configuration agree on a
concrete job and template. -/
theorem claim_C9_witness :
    Backend.resolve_log (mkSGE ⟨none, none⟩) ⟨1⟩ "log-$JOB_ID" =
      Backend.resolve_log (mkSGE ⟨none, none⟩) ⟨1⟩ "log-$JOB_ID" :=
  (claim_C9 (some "jip.cluster.SGE") ⟨none, none⟩ (mkSGE ⟨none, none⟩)
    (mkSGE ⟨none, none⟩) rfl rfl).1 ⟨1⟩ "log-$JOB_ID"

/-- C10: equality and hashing of options depend only on the name
attribute: two options are equal exactly when their names are equal
whatever their other attributes, the hash of an option is the hash of its
name, and consequently container lookup by name (getitem) and add's
duplicate check match any existing option with that name. -/
theorem claim_C10 (a b : JOption) (opts : Options) (nm : String) (o : JOption) :
    (a.beq b = true ↔ a.name = b.name) ∧
    (a.hashv = strHash a.name) ∧
    (∀ x, opts.getitem nm = some x → x ∈ opts.options ∧ x.name = nm) ∧
    ((opts.getitem nm).isSome ↔ ∃ x ∈ opts.options, x.name = nm) ∧
    ((∃ e, opts.add o = Except.error e) ↔ ∃ x ∈ opts.options, x.name = o.name) := by
  have hget : ∀ x, opts.getitem nm = some x → x ∈ opts.options ∧ x.name = nm := by
    intro x hx
    unfold Options.getitem Options.index at hx
    by_cases h : (0 : Int) ≤ idxAux opts.options nm
    · rw [if_pos h] at hx
      obtain ⟨y, hy, hyn⟩ := idxAux_get opts.options nm h
      rw [hy] at hx
      injection hx with hx
      subst hx
      exact ⟨List.getElem?_mem hy, hyn⟩
    · rw [if_neg h] at hx
      exact absurd hx (by simp)
  refine ⟨?_, rfl, hget, ?_, ?_⟩
  · simp [JOption.beq]
  · constructor
    · intro h
      obtain ⟨x, hx⟩ := Option.isSome_iff_exists.mp h
      obtain ⟨hmem, hname⟩ := hget x hx
      exact ⟨x, hmem, hname⟩
    · intro h
      have hnn : (0 : Int) ≤ idxAux opts.options nm :=
        (idxAux_nonneg_iff opts.options nm).mpr h
      obtain ⟨y, hy, _⟩ := idxAux_get opts.options nm hnn
      unfold Options.getitem Options.index
      rw [if_pos hnn, hy]
      rfl
  · unfold Options.add Options.index
    by_cases h : (0 : Int) ≤ idxAux opts.options o.name
    · rw [if_pos h]
      constructor
      · intro _
        exact (idxAux_nonneg_iff opts.options o.name).mp h
      · intro _
        exact ⟨"Option with the name already exists", rfl⟩
    · rw [if_neg h]
      constructor
      · rintro ⟨e, he⟩
        exact absurd he (by simp)
      · intro hex
        exact absurd ((idxAux_nonneg_iff opts.options o.name).mpr hex) h

/-- C10 witness: a concrete container in which lookup by name finds an
option differing from the probe in every other attribute. -/
theorem claim_C10_witness :
    ((mkOption "a").beq ⟨"a", some "-a", none, NArgs.star, none, ["v"], true, true⟩ = true ↔
      (mkOption "a").name = "a") ∧
    ((mkOption "a").hashv = strHash (mkOption "a").name) ∧
    (∀ x, Options.getitem ⟨[⟨"a", some "-a", none, NArgs.star, none, ["v"], true, true⟩]⟩ "a" = some x →
      x ∈ [(⟨"a", some "-a", none, NArgs.star, none, ["v"], true, true⟩ : JOption)] ∧ x.name = "a") ∧
    ((Options.getitem ⟨[⟨"a", some "-a", none, NArgs.star, none, ["v"], true, true⟩]⟩ "a").isSome ↔
      ∃ x ∈ [(⟨"a", some "-a", none, NArgs.star, none, ["v"], true, true⟩ : JOption)], x.name = "a") ∧
    ((∃ e, Options.add ⟨[⟨"a", some "-a", none, NArgs.star, none, ["v"], true, true⟩]⟩ (mkOption "a") = Except.error e) ↔
      ∃ x ∈ [(⟨"a", some "-a", none, NArgs.star, none, ["v"], true, true⟩ : JOption)], x.name = (mkOption "a").name) :=
  claim_C10 (mkOption "a") ⟨"a", some "-a", none, NArgs.star, none, ["v"], true, true⟩
    ⟨[⟨"a", some "-a", none, NArgs.star, none, ["v"], true, true⟩]⟩ "a" (mkOption "a")
